import Mathlib

/-
Verification of the streak-asset generator (scripts/generate-streak-assets.py).

The script's numeric code runs on Python floats; we embed it over an
arbitrary linear ordered field (instantiated at ℚ for the computable
palette/quantizer claims and at ℝ for the trigonometric rendering claims).
Pillow library primitives, which are external to the repository, are
modelled as explicit pixel-level functions; each model's doc comment names
the primitive it stands for.
-/

namespace Streak

/-- Python helper `clamp(value, low, high) = max(low, min(high, value))`. -/
def clamp {α : Type} [LinearOrder α] (value low high : α) : α :=
  max low (min high value)

/-- Python helper `lerp(a, b, t) = a + (b - a) * t`. -/
def lerp {α : Type} [Ring α] (a b t : α) : α :=
  a + (b - a) * t

/-- Python `round` to an integer: round half to even (banker's rounding). -/
def pyRound {α : Type} [LinearOrderedField α] [FloorRing α] (x : α) : ℤ :=
  let f := ⌊x⌋
  let r := x - (f : α)
  if r < 1 / 2 then f
  else if 1 / 2 < r then f + 1
  else if f % 2 = 0 then f else f + 1

/-- Python `int(...)` applied to a number: truncation toward zero. -/
def pyInt {α : Type} [LinearOrderedField α] [FloorRing α] (x : α) : ℤ :=
  if 0 ≤ x then ⌊x⌋ else ⌈x⌉

/-- Python `lerp_color`: channelwise `int(round(lerp(a, b, t)))`. -/
def lerp_color {α : Type} [LinearOrderedField α] [FloorRing α]
    (a b : ℤ × ℤ × ℤ) (t : α) : ℤ × ℤ × ℤ :=
  (pyRound (lerp (a.1 : α) (b.1 : α) t),
   pyRound (lerp (a.2.1 : α) (b.2.1 : α) t),
   pyRound (lerp (a.2.2 : α) (b.2.2 : α) t))

/-- The frozen dataclass `PaletteStop(at, color)`; the field `at` is named
`atPos` because `at` is reserved in Lean. -/
structure PaletteStop (α : Type) where
  atPos : α
  color : ℤ × ℤ × ℤ
  deriving DecidableEq

/-- Stable insertion of a stop in front of the first stop of key ≥ its own. -/
def insStop {α : Type} [LinearOrder α] (s : PaletteStop α) :
    List (PaletteStop α) → List (PaletteStop α)
  | [] => [s]
  | t :: rest => if s.atPos ≤ t.atPos then s :: t :: rest else t :: insStop s rest

/-- Python `sorted(stops, key=lambda s: s.at)`: a stable sort by position
(insertion sort; any stable sort by the same key yields the same list). -/
def sortStops {α : Type} [LinearOrder α] :
    List (PaletteStop α) → List (PaletteStop α)
  | [] => []
  | a :: rest => insStop a (sortStops rest)

/-- Boundary padding of `build_luts`: if the first sorted stop sits above 0,
insert a clone of it at position 0; if the last sits below 1, append a clone
of it at position 1. -/
def padStops {α : Type} [LinearOrderedField α] (l : List (PaletteStop α)) :
    List (PaletteStop α) :=
  let l1 : List (PaletteStop α) := match l with
    | [] => []
    | a :: rest => if 0 < a.atPos then ⟨0, a.color⟩ :: a :: rest else a :: rest
  match l1.getLast? with
  | none => l1
  | some z => if z.atPos < 1 then l1 ++ [⟨1, z.color⟩] else l1

/-- The linear scan of `build_luts`: first consecutive pair of sorted stops
with `lo.at <= x <= hi.at`, if any. -/
def findBracket {α : Type} [LinearOrderedField α] :
    List (PaletteStop α) → α → Option (PaletteStop α × PaletteStop α)
  | a :: b :: rest, x =>
      if a.atPos ≤ x ∧ x ≤ b.atPos then some (a, b) else findBracket (b :: rest) x
  | _, _ => none

/-- The interpolation divisor `max(1e-6, hi.at - lo.at)` of `build_luts`. -/
def lutSpan {α : Type} [LinearOrderedField α] (lo hi : PaletteStop α) : α :=
  max (1 / 1000000) (hi.atPos - lo.atPos)

/-- One iteration of the 256-sample loop of `build_luts` over the sorted,
padded stop list: locate a bracketing pair (global first/last as fallback),
interpolate, scale by brightness, clamp and truncate. -/
def lutSample {α : Type} [LinearOrderedField α] [FloorRing α]
    (ss : List (PaletteStop α)) (brightness : α) (i : ℕ) : ℤ × ℤ × ℤ :=
  let x : α := (i : α) / 255
  let d : PaletteStop α := ⟨0, (0, 0, 0)⟩
  let lo0 := ss.headD d
  let hi0 := ss.getLastD d
  let lh := (findBracket ss x).getD (lo0, hi0)
  let lo := lh.1
  let hi := lh.2
  let t := clamp ((x - lo.atPos) / lutSpan lo hi) 0 1
  let c := lerp_color lo.color hi.color t
  (pyInt (clamp ((c.1 : α) * brightness) 0 255),
   pyInt (clamp ((c.2.1 : α) * brightness) 0 255),
   pyInt (clamp ((c.2.2 : α) * brightness) 0 255))

/-- The 256-entry channel LUTs built from an already sorted and padded stop
list (the loop body of `build_luts`). -/
def lutsFromSorted {α : Type} [LinearOrderedField α] [FloorRing α]
    (ss : List (PaletteStop α)) (brightness : α) :
    List ℤ × List ℤ × List ℤ :=
  ((List.range 256).map fun i => (lutSample ss brightness i).1,
   (List.range 256).map fun i => (lutSample ss brightness i).2.1,
   (List.range 256).map fun i => (lutSample ss brightness i).2.2)

/-- `build_luts(stops, brightness)`: sort, fail on an empty stop list
(`raise ValueError`, modelled as `none`), pad the boundaries and sample the
three 256-entry LUTs. -/
def build_luts {α : Type} [LinearOrderedField α] [FloorRing α]
    (stops : List (PaletteStop α)) (brightness : α) :
    Option (List ℤ × List ℤ × List ℤ) :=
  match sortStops stops with
  | [] => none
  | s :: rest => some (lutsFromSorted (padStops (s :: rest)) brightness)

/-- `build_luts` as used by the renderers, where the stop lists are nonempty
literals so the error branch is unreachable. -/
def build_lutsD {α : Type} [LinearOrderedField α] [FloorRing α]
    (stops : List (PaletteStop α)) (brightness : α) :
    List ℤ × List ℤ × List ℤ :=
  (build_luts stops brightness).getD ([], [], [])

/-! Heap-level model of `build_luts`'s effect on its argument.  Python lists
are mutable heap objects; we model a heap as a list of stop lists addressed
by index, and re-trace `build_luts` at that level: `sorted(stops)` allocates
a fresh list, and the two boundary insertions write to the fresh list only. -/

/-- A heap of Python list objects holding palette stops. -/
abbrev StopHeap : Type := List (List (PaletteStop ℚ))

/-- Python `sorted(heap[r])`: allocates a fresh sorted copy at a new address
(the old heap length) and returns that address. -/
def pyListSorted (heap : StopHeap) (r : ℕ) : StopHeap × ℕ :=
  (heap ++ [sortStops (heap.getD r [])], heap.length)

/-- Python `heap[r].insert(0, s)`: in-place prepend on the list at `r`. -/
def pyListInsert0 (heap : StopHeap) (r : ℕ) (s : PaletteStop ℚ) : StopHeap :=
  heap.set r (s :: heap.getD r [])

/-- Python `heap[r].append(s)`: in-place append on the list at `r`. -/
def pyListAppend (heap : StopHeap) (r : ℕ) (s : PaletteStop ℚ) : StopHeap :=
  heap.set r (heap.getD r [] ++ [s])

/-- `build_luts` re-traced with its list operations acting on an explicit
heap: the input list lives at address `r`, `sorted` allocates the working
copy `stops_sorted`, and both boundary-stop mutations target that copy.
Returns the final heap together with the result (`none` for the
`ValueError` on an empty stop list). -/
def build_luts_state (heap : StopHeap) (r : ℕ) (brightness : ℚ) :
    StopHeap × Option (List ℤ × List ℤ × List ℤ) :=
  let p := pyListSorted heap r
  let h1 := p.1
  let rs := p.2
  match h1.getD rs [] with
  | [] => (h1, none)
  | a :: _ =>
    let h2 := if 0 < a.atPos then pyListInsert0 h1 rs ⟨0, a.color⟩ else h1
    match (h2.getD rs []).getLast? with
    | none => (h2, none)
    | some z =>
      let h3 := if z.atPos < 1 then pyListAppend h2 rs ⟨1, z.color⟩ else h2
      (h3, some (lutsFromSorted (h3.getD rs []) brightness))

/-! Model of `rgba_to_gif_frame` and of the Pillow adaptive quantization it
calls.  Final frames are 8-bit RGBA rasters, modelled with natural-number
channels. -/

/-- An 8-bit RGBA raster: dimensions plus four channel functions. -/
structure NImg where
  width : ℕ
  height : ℕ
  r : ℕ → ℕ → ℕ
  g : ℕ → ℕ → ℕ
  b : ℕ → ℕ → ℕ
  a : ℕ → ℕ → ℕ

/-- An indexed-palette raster (Pillow mode `P` image) with the transparency
info slot set by `rgba_to_gif_frame`. -/
structure PalImg where
  width : ℕ
  height : ℕ
  idx : ℕ → ℕ → ℕ
  transparency : ℕ

/-- Row-major list of the RGB colors of a raster. -/
def pixelColors (img : NImg) : List (ℕ × ℕ × ℕ) :=
  (List.range img.height).flatMap fun y =>
    (List.range img.width).map fun x => (img.r x y, img.g x y, img.b x y)

/-- Distinct colors in order of first appearance. -/
def scanPalette (l : List (ℕ × ℕ × ℕ)) : List (ℕ × ℕ × ℕ) :=
  l.foldl (fun acc c => if c ∈ acc then acc else acc ++ [c]) []

/-- Squared Euclidean distance between two RGB colors. -/
def colorDist (c d : ℕ × ℕ × ℕ) : ℤ :=
  ((c.1 : ℤ) - d.1) ^ 2 + ((c.2.1 : ℤ) - d.2.1) ^ 2 + ((c.2.2 : ℤ) - d.2.2) ^ 2

/-- Index of the first palette entry at minimal distance from `c`, scanning
from entry `i` with current best `best`. -/
def nearestFrom (c : ℕ × ℕ × ℕ) : List (ℕ × ℕ × ℕ) → ℕ → ℕ × ℤ → ℕ
  | [], _, best => best.1
  | d :: rest, i, best =>
      if colorDist d c < best.2 then nearestFrom c rest (i + 1) (i, colorDist d c)
      else nearestFrom c rest (i + 1) best

/-- Index of the palette entry nearest to `c` (first on ties, 0 if empty). -/
def nearestIdx (pal : List (ℕ × ℕ × ℕ)) (c : ℕ × ℕ × ℕ) : ℕ :=
  match pal with
  | [] => 0
  | d :: rest => nearestFrom c rest 1 (0, colorDist d c)

/-- Pillow primitive model: `rgba.convert("P", palette=ADAPTIVE,
colors=colors, dither=NONE)`.  The adaptive palette is modelled as the
raster's distinct colors in scan order truncated to the budget, and the
ditherless assignment maps each pixel to the nearest palette entry.  No
index is reserved: entry 0 is an ordinary color slot. -/
def quantizeAdaptive (img : NImg) (colors : ℕ) : ℕ → ℕ → ℕ :=
  fun x y =>
    nearestIdx ((scanPalette (pixelColors img)).take colors)
      (img.r x y, img.g x y, img.b x y)

/-- `rgba_to_gif_frame(img, alpha_threshold, colors)`: adaptively quantize
the RGBA frame, then `pal.paste(0, transparent)` forces index 0 wherever the
source alpha is at most the threshold, and the transparency info slot is set
to 0. -/
def rgba_to_gif_frame (img : NImg) (alpha_threshold : ℕ) (colors : ℕ) : PalImg :=
  let palIdx := quantizeAdaptive img colors
  { width := img.width
    height := img.height
    idx := fun x y => if img.a x y ≤ alpha_threshold then 0 else palIdx x y
    transparency := 0 }

/-- A 2x1 test frame: one almost-transparent pixel and one fully opaque
pixel of the same color. -/
def mixedFrame : NImg :=
  { width := 2
    height := 1
    r := fun _ _ => 180
    g := fun _ _ => 60
    b := fun _ _ => 40
    a := fun x _ => if x = 0 then 4 else 255 }

/-! Real-valued image model for the two frame renderers.  The script's
pixel arithmetic runs on 8-bit channels through Pillow; we model images as
dimension-tagged real-valued pixel functions, which keeps every phase-driven
quantity exact.  Each Pillow primitive the renderers call is modelled below
as an explicit deterministic pixel-level function. -/

/-- A grayscale (Pillow mode `L`) image. -/
structure GImg where
  width : ℕ
  height : ℕ
  v : ℕ → ℕ → ℝ

/-- An RGBA image. -/
structure RImg where
  width : ℕ
  height : ℕ
  r : ℕ → ℕ → ℝ
  g : ℕ → ℕ → ℝ
  b : ℕ → ℕ → ℝ
  a : ℕ → ℕ → ℝ

/-- Pillow `Image.new("L", (w, h), c)`. -/
def newGray (w h : ℕ) (c : ℝ) : GImg := ⟨w, h, fun _ _ => c⟩

/-- Pillow `Image.new("RGBA", (w, h), c)`. -/
def newRGBA (w h : ℕ) (c : ℝ × ℝ × ℝ × ℝ) : RImg :=
  ⟨w, h, fun _ _ => c.1, fun _ _ => c.2.1, fun _ _ => c.2.2.1, fun _ _ => c.2.2.2⟩

/-- Pillow `Image.linear_gradient("L")`: a 256x256 vertical ramp, 0 at the
top row to 255 at the bottom row. -/
def linearGradient256 : GImg := ⟨256, 256, fun _ y => (y : ℝ)⟩

/-- Pillow `Image.radial_gradient("L")`: a 256x256 ramp, 0 at the center
growing with distance from it, clamped to 255. -/
noncomputable def radialGradient256 : GImg :=
  ⟨256, 256, fun x y =>
    min 255 (255 * Real.sqrt (((x : ℝ) - 128) ^ 2 + ((y : ℝ) - 128) ^ 2) / 128)⟩

/-- Pillow primitive model: `resize((w, h), ...)` on a grayscale image, as
coordinate rescaling of the source raster (the resampling kernel is
irrelevant to the claims checked here). -/
def resizeGray (img : GImg) (w h : ℕ) : GImg :=
  ⟨w, h, fun x y => img.v (x * img.width / w) (y * img.height / h)⟩

/-- Pillow primitive model: `resize((w, h), ...)` on an RGBA image. -/
def resizeRGBA (img : RImg) (w h : ℕ) : RImg :=
  ⟨w, h,
   fun x y => img.r (x * img.width / w) (y * img.height / h),
   fun x y => img.g (x * img.width / w) (y * img.height / h),
   fun x y => img.b (x * img.width / w) (y * img.height / h),
   fun x y => img.a (x * img.width / w) (y * img.height / h)⟩

/-- Pillow `crop((x0, y0, x1, y1))` on a grayscale image. -/
def cropGray (img : GImg) (x0 y0 x1 y1 : ℕ) : GImg :=
  ⟨x1 - x0, y1 - y0, fun x y => img.v (x + x0) (y + y0)⟩

/-- Pillow `ImageOps.invert` on a grayscale image. -/
def invertGray (img : GImg) : GImg :=
  ⟨img.width, img.height, fun x y => 255 - img.v x y⟩

/-- Pillow `image.point(f)` on a grayscale image. -/
def pointGray (img : GImg) (f : ℝ → ℝ) : GImg :=
  ⟨img.width, img.height, fun x y => f (img.v x y)⟩

/-- A LUT lookup `lut[v]` with the gray level clamped to the 0..255 range. -/
noncomputable def lutAt (lut : List ℤ) (v : ℝ) : ℝ :=
  ((lut.getD (pyInt (clamp v 0 255)).toNat 0 : ℤ) : ℝ)

/-- `colorize_gradient(gradient, luts)`: per-channel `point` lookups merged
to RGB and converted to a fully opaque RGBA image. -/
noncomputable def colorize_gradient (grad : GImg)
    (luts : List ℤ × List ℤ × List ℤ) : RImg :=
  ⟨grad.width, grad.height,
   fun x y => lutAt luts.1 (grad.v x y),
   fun x y => lutAt luts.2.1 (grad.v x y),
   fun x y => lutAt luts.2.2 (grad.v x y),
   fun _ _ => 255⟩

/-- `alpha_overlay(color, alpha_mask)`: a constant-color RGBA image whose
alpha channel is the given mask. -/
def alpha_overlay (color : ℤ × ℤ × ℤ) (alpha_mask : GImg) : RImg :=
  ⟨alpha_mask.width, alpha_mask.height,
   fun _ _ => (color.1 : ℝ), fun _ _ => (color.2.1 : ℝ), fun _ _ => (color.2.2 : ℝ),
   alpha_mask.v⟩

/-- Pillow `Image.alpha_composite(bg, fg)`: the standard `over` operator on
straight-alpha pixels (8-bit alphas scaled by 255). -/
noncomputable def alphaComposite (bg fg : RImg) : RImg :=
  let outA : ℕ → ℕ → ℝ := fun x y => fg.a x y + bg.a x y * (1 - fg.a x y / 255)
  let mix : (ℕ → ℕ → ℝ) → (ℕ → ℕ → ℝ) → ℕ → ℕ → ℝ := fun cb cf x y =>
    (cf x y * fg.a x y + cb x y * bg.a x y * (1 - fg.a x y / 255)) / outA x y
  ⟨bg.width, bg.height, mix bg.r fg.r, mix bg.g fg.g, mix bg.b fg.b, outA⟩

/-- Pillow `img.putalpha(mask)` (on a fresh copy, as the script always
copies or owns the image it writes to). -/
def putalpha (img : RImg) (mask : GImg) : RImg :=
  ⟨img.width, img.height, img.r, img.g, img.b, mask.v⟩

/-- Pillow `img.getchannel("A")`. -/
def getchannelA (img : RImg) : GImg :=
  ⟨img.width, img.height, img.a⟩

/-- Pillow `ImageChops.offset(img, dx, dy)`: a circular shift. -/
def offsetGray (img : GImg) (dx dy : ℤ) : GImg :=
  ⟨img.width, img.height, fun x y =>
    img.v (((x : ℤ) - dx) % (img.width : ℤ)).toNat (((y : ℤ) - dy) % (img.height : ℤ)).toNat⟩

/-- Gaussian weight used by the blur model (the `+ 1` keeps the divisor
positive for every radius). -/
noncomputable def gaussW (radius : ℝ) (dx dy : ℤ) : ℝ :=
  Real.exp (-(((dx : ℝ) ^ 2 + (dy : ℝ) ^ 2) / (2 * radius ^ 2 + 1)))

/-- Pillow primitive model: `filter(ImageFilter.GaussianBlur(radius))` on a
grayscale image, as a normalized Gaussian-weighted average of the raster. -/
noncomputable def blurGray (radius : ℝ) (img : GImg) : GImg :=
  ⟨img.width, img.height, fun x y =>
    (∑ i ∈ Finset.range img.width, ∑ j ∈ Finset.range img.height,
        gaussW radius ((x : ℤ) - i) ((y : ℤ) - j) * img.v i j) /
    (∑ i ∈ Finset.range img.width, ∑ j ∈ Finset.range img.height,
        gaussW radius ((x : ℤ) - i) ((y : ℤ) - j))⟩

/-- Pillow `GaussianBlur` on an RGBA image: each band blurred independently. -/
noncomputable def blurRGBA (radius : ℝ) (img : RImg) : RImg :=
  ⟨img.width, img.height,
   (blurGray radius ⟨img.width, img.height, img.r⟩).v,
   (blurGray radius ⟨img.width, img.height, img.g⟩).v,
   (blurGray radius ⟨img.width, img.height, img.b⟩).v,
   (blurGray radius ⟨img.width, img.height, img.a⟩).v⟩

/-- Pillow primitive model: `ImageEnhance.Contrast(img).enhance(factor)` on
a grayscale image: interpolation away from the image's mean gray level. -/
noncomputable def contrastGray (factor : ℝ) (img : GImg) : GImg :=
  let mean : ℝ :=
    (∑ i ∈ Finset.range img.width, ∑ j ∈ Finset.range img.height, img.v i j) /
      ((img.width : ℝ) * (img.height : ℝ))
  ⟨img.width, img.height, fun x y => mean + factor * (img.v x y - mean)⟩

/-- Pillow primitive model: `ImageEnhance.Brightness(img).enhance(factor)`
on an RGBA image: the color bands scaled, alpha kept. -/
def brightRGBA (factor : ℝ) (img : RImg) : RImg :=
  ⟨img.width, img.height,
   fun x y => factor * img.r x y, fun x y => factor * img.g x y,
   fun x y => factor * img.b x y, img.a⟩

/-- Membership test for the filled ellipse of bounding box
`(x0, y0, x1, y1)`, written without divisions. -/
def inEllipse (x0 y0 x1 y1 px py : ℝ) : Prop :=
  (2 * px - (x0 + x1)) ^ 2 * (y1 - y0) ^ 2 + (2 * py - (y0 + y1)) ^ 2 * (x1 - x0) ^ 2
    ≤ (x1 - x0) ^ 2 * (y1 - y0) ^ 2

noncomputable instance (x0 y0 x1 y1 px py : ℝ) :
    Decidable (inEllipse x0 y0 x1 y1 px py) := by
  unfold inEllipse; infer_instance

/-- Pillow `draw.ellipse(bbox, fill)` on a grayscale image. -/
noncomputable def drawEllipseGray (img : GImg) (x0 y0 x1 y1 : ℝ) (fill : ℝ) : GImg :=
  ⟨img.width, img.height, fun x y =>
    if inEllipse x0 y0 x1 y1 (x : ℝ) (y : ℝ) then fill else img.v x y⟩

/-- Pillow `draw.ellipse(bbox, fill)` on an RGBA image (draw replaces the
pixel value, including alpha). -/
noncomputable def drawEllipseRGBA (img : RImg) (x0 y0 x1 y1 : ℝ)
    (fill : ℝ × ℝ × ℝ × ℝ) : RImg :=
  ⟨img.width, img.height,
   fun x y => if inEllipse x0 y0 x1 y1 (x : ℝ) (y : ℝ) then fill.1 else img.r x y,
   fun x y => if inEllipse x0 y0 x1 y1 (x : ℝ) (y : ℝ) then fill.2.1 else img.g x y,
   fun x y => if inEllipse x0 y0 x1 y1 (x : ℝ) (y : ℝ) then fill.2.2.1 else img.b x y,
   fun x y => if inEllipse x0 y0 x1 y1 (x : ℝ) (y : ℝ) then fill.2.2.2 else img.a x y⟩

/-- One ray-casting test: does the edge from `e.1` to `e.2` cross the
horizontal ray to the right of point `p`. -/
noncomputable def edgeCrosses (e : (ℝ × ℝ) × (ℝ × ℝ)) (p : ℝ × ℝ) : Bool :=
  let xi := e.1.1; let yi := e.1.2; let xj := e.2.1; let yj := e.2.2
  decide (((yi ≤ p.2 ∧ p.2 < yj) ∨ (yj ≤ p.2 ∧ p.2 < yi)) ∧
    (p.1 - xi) * (yj - yi) ^ 2 < (p.2 - yi) * (xj - xi) * (yj - yi))

/-- Even-odd point-in-polygon test by ray casting. -/
noncomputable def inPoly (pts : List (ℝ × ℝ)) (p : ℝ × ℝ) : Prop :=
  ((pts.zip (pts.drop 1 ++ pts.take 1)).countP fun e => edgeCrosses e p) % 2 = 1

noncomputable instance (pts : List (ℝ × ℝ)) (p : ℝ × ℝ) :
    Decidable (inPoly pts p) := by
  unfold inPoly; infer_instance

/-- Pillow `draw.polygon(pts, fill)` on a grayscale image. -/
noncomputable def drawPolyGray (img : GImg) (pts : List (ℝ × ℝ)) (fill : ℝ) : GImg :=
  ⟨img.width, img.height, fun x y =>
    if inPoly pts ((x : ℝ), (y : ℝ)) then fill else img.v x y⟩

/-- Pillow `draw.polygon(pts, fill)` on an RGBA image. -/
noncomputable def drawPolyRGBA (img : RImg) (pts : List (ℝ × ℝ))
    (fill : ℝ × ℝ × ℝ × ℝ) : RImg :=
  ⟨img.width, img.height,
   fun x y => if inPoly pts ((x : ℝ), (y : ℝ)) then fill.1 else img.r x y,
   fun x y => if inPoly pts ((x : ℝ), (y : ℝ)) then fill.2.1 else img.g x y,
   fun x y => if inPoly pts ((x : ℝ), (y : ℝ)) then fill.2.2.1 else img.b x y,
   fun x y => if inPoly pts ((x : ℝ), (y : ℝ)) then fill.2.2.2 else img.a x y⟩

/-- Squared distance from point `p` to the segment from `a` to `b`, via the
clamped orthogonal projection. -/
noncomputable def segDist2 (a b p : ℝ × ℝ) : ℝ :=
  let den := (b.1 - a.1) ^ 2 + (b.2 - a.2) ^ 2
  let t := clamp (((p.1 - a.1) * (b.1 - a.1) + (p.2 - a.2) * (b.2 - a.2)) / den) 0 1
  (p.1 - (a.1 + t * (b.1 - a.1))) ^ 2 + (p.2 - (a.2 + t * (b.2 - a.2))) ^ 2

/-- Pillow `draw.line((x0, y0, x1, y1), fill, width)` on an RGBA image: the
stroke covers the pixels within half the width of the segment. -/
noncomputable def drawLineRGBA (img : RImg) (x0 y0 x1 y1 : ℝ)
    (fill : ℝ × ℝ × ℝ × ℝ) (lineWidth : ℝ) : RImg :=
  let hit : ℕ → ℕ → Prop := fun x y =>
    segDist2 (x0, y0) (x1, y1) ((x : ℝ), (y : ℝ)) ≤ (lineWidth / 2) ^ 2
  ⟨img.width, img.height,
   fun x y => if hit x y then fill.1 else img.r x y,
   fun x y => if hit x y then fill.2.1 else img.g x y,
   fun x y => if hit x y then fill.2.2.1 else img.b x y,
   fun x y => if hit x y then fill.2.2.2 else img.a x y⟩

/-- Pillow primitive model: `filter(ImageFilter.UnsharpMask(radius, percent,
threshold))`: each band moves away from its blur by `percent` where the
difference exceeds the threshold. -/
noncomputable def unsharpRGBA (radius percent threshold : ℝ) (img : RImg) : RImg :=
  let sharp : (ℕ → ℕ → ℝ) → ℕ → ℕ → ℝ := fun c x y =>
    let bl := (blurGray radius ⟨img.width, img.height, c⟩).v x y
    if threshold ≤ |c x y - bl| then c x y + (percent / 100) * (c x y - bl) else c x y
  ⟨img.width, img.height, sharp img.r, sharp img.g, sharp img.b, sharp img.a⟩

/-- The phase sinusoid `sin(2*pi*(t + c))`; every periodic term of both
renderers is one of these. -/
noncomputable def ph (c t : ℝ) : ℝ := Real.sin (2 * Real.pi * (t + c))

/-- `draw_flame_mask(size, t, scale, y_bias, x_bias)`: the four overlapping
primitives (body, mid bulge, tip, bridge) on a fresh mask, then a Gaussian
blur and a contrast boost. -/
noncomputable def draw_flame_mask (size : ℕ) (t scale y_bias x_bias : ℝ) : GImg :=
  let sz : ℝ := (size : ℝ)
  let mask0 := newGray size size 0
  let wobble := ph 0 t
  let wobble2 := ph 0.23 t
  let wobble3 := ph 0.41 t
  let cx := sz * 0.5 + x_bias + (sz * 0.018) * wobble2
  let base_y := sz * 0.68 + y_bias + (sz * 0.012) * wobble
  let height := sz * (0.60 * scale) * (1.0 + 0.06 * wobble)
  let width := sz * (0.44 * scale) * (1.0 + 0.05 * wobble2)
  let body_h := height * 0.70
  let mask1 := drawEllipseGray mask0 (cx - width / 2) (base_y - body_h / 2)
    (cx + width / 2) (base_y + body_h / 2) 255
  let mid_w := width * (0.86 + 0.06 * wobble3)
  let mid_h := body_h * 0.78
  let mid_y := base_y - body_h * 0.16
  let mask2 := drawEllipseGray mask1 (cx - mid_w / 2) (mid_y - mid_h / 2)
    (cx + mid_w / 2) (mid_y + mid_h / 2) 255
  let tip_y := base_y - height * (0.58 + 0.02 * wobble2)
  let tip_w := width * (0.48 + 0.04 * wobble3)
  let tip_h := height * (0.40 + 0.03 * wobble)
  let mask3 := drawEllipseGray mask2 (cx - tip_w / 2) (tip_y - tip_h / 2)
    (cx + tip_w / 2) (tip_y + tip_h / 2) 255
  let bridge_y := base_y - body_h * 0.18
  let mask4 := drawPolyGray mask3
    [(cx, tip_y - tip_h * 0.44), (cx - width * 0.46, bridge_y), (cx + width * 0.46, bridge_y)]
    255
  contrastGray 1.15 (blurGray (sz * 0.008) mask4)

/-- The flicker value `0.45 + 0.55 * sin(2*pi*(t + 0.52))` gating the ember
of the flame pipeline. -/
noncomputable def ember_on (t : ℝ) : ℝ := 0.45 + 0.55 * ph 0.52 t

/-- The ember layer of `render_flame_frame`: a soft white dot near the tip,
drawn on a fresh transparent canvas and blurred. -/
noncomputable def flame_ember (size : ℕ) (t : ℝ) : RImg :=
  let sz : ℝ := (size : ℝ)
  let ember0 := newRGBA size size (0, 0, 0, 0)
  let ex := sz * 0.5 + (sz * 0.05) * ph 0.12 t
  let ey := sz * 0.22 + (sz * 0.03) * ph 0.64 t
  let r := sz * 0.018 * (0.9 + 0.4 * ember_on t)
  let ember1 := drawEllipseRGBA ember0 (ex - r) (ey - r) (ex + r) (ey + r)
    (255, 255, 255, ((pyInt (140 * ember_on t) : ℤ) : ℝ))
  blurRGBA (sz * 0.006) ember1

/-- The flame pipeline of `render_flame_frame` up to the glow-under-sharp
composite (everything before the conditional ember). -/
noncomputable def flame_base (size : ℕ) (t : ℝ) : RImg :=
  let sz : ℝ := (size : ℝ)
  let margin : ℕ := 56
  let linear_big := resizeGray linearGradient256 size (size + margin)
  let wobble := ph 0 t
  let crop_y0 : ℤ := pyInt ((margin : ℝ) / 2 + 12 * wobble)
  let crop_y : ℤ := pyInt (clamp ((crop_y0 : ℝ)) 0 (margin : ℝ))
  let linear := cropGray linear_big 0 crop_y.toNat size (crop_y.toNat + size)
  let edge := resizeGray radialGradient256 size size
  let center := invertGray edge
  let brightness := 1.0 + 0.05 * ph 0.08 t
  let outer_luts := build_lutsD
    [⟨0, (255, 255, 246)⟩, ⟨0.18, (255, 242, 170)⟩, ⟨0.48, (255, 176, 50)⟩,
     ⟨0.74, (255, 106, 18)⟩, ⟨1, (235, 40, 6)⟩] brightness
  let fill0 := colorize_gradient linear outer_luts
  let shade_alpha := pointGray edge fun v => ((pyInt (v * 0.18) : ℤ) : ℝ)
  let fill1 := alphaComposite fill0 (alpha_overlay (0, 0, 0) shade_alpha)
  let highlight := offsetGray center (pyInt (8 * ph 0.17 t)) (pyInt (-18 + 6 * wobble))
  let highlight_alpha := pointGray highlight fun v => ((pyInt (v * 0.36) : ℤ) : ℝ)
  let fill2 := alphaComposite fill1 (alpha_overlay (255, 255, 255) highlight_alpha)
  let outer_mask := draw_flame_mask size t 1.0 0.0 0.0
  let outer := putalpha fill2 outer_mask
  let inner_mask := draw_flame_mask size t 0.62 (-(sz * 0.02)) (sz * 0.01)
  let inner_luts := build_lutsD
    [⟨0, (255, 255, 255)⟩, ⟨0.28, (255, 248, 196)⟩, ⟨0.62, (255, 212, 106)⟩,
     ⟨1, (255, 150, 40)⟩] (1.0 + 0.03 * ph 0.33 t)
  let inner_fill0 := colorize_gradient linear inner_luts
  let inner_glow := offsetGray center 0 (pyInt (-26 + 4 * wobble))
  let inner_alpha := pointGray inner_glow fun v => ((pyInt (v * 0.42) : ℤ) : ℝ)
  let inner_fill1 := alphaComposite inner_fill0 (alpha_overlay (255, 255, 255) inner_alpha)
  let inner_fill2 := putalpha inner_fill1 inner_mask
  let composed := alphaComposite outer inner_fill2
  let glow := brightRGBA 1.15 (blurRGBA (sz * 0.02) composed)
  let glow_alpha := pointGray (getchannelA glow) fun v => ((pyInt (v * 0.70) : ℤ) : ℝ)
  let glow2 := putalpha glow glow_alpha
  alphaComposite glow2 composed

/-- The final downscale and sharpen shared by both branches of the flame
pipeline. -/
noncomputable def flame_out (out_size : ℕ) (img : RImg) : RImg :=
  unsharpRGBA 1.2 160 2 (resizeRGBA img out_size out_size)

/-- `render_flame_frame(size, out_size, t)`: the flame pipeline, with the
ember composited on top exactly when the flicker exceeds 0.55, then
downscaled and sharpened. -/
noncomputable def render_flame_frame (size out_size : ℕ) (t : ℝ) : RImg :=
  flame_out out_size
    (if 0.55 < ember_on t then alphaComposite (flame_base size t) (flame_ember size t)
     else flame_base size t)

/-- `star_points(cx, cy, r_outer, r_inner, points, rotation)`: alternating
outer/inner radius vertices of a star polygon. -/
noncomputable def star_points (cx cy r_outer r_inner : ℝ) (points : ℕ)
    (rotation : ℝ) : List (ℝ × ℝ) :=
  let step := Real.pi / (points : ℝ)
  (List.range (points * 2)).map fun i =>
    let r := if i % 2 = 0 then r_outer else r_inner
    let angle := rotation + (i : ℝ) * step
    (cx + r * Real.cos angle, cy + r * Real.sin angle)

/-- `render_star_frame(size, out_size, t)`: main star, core star, two cross
streaks, two secondary twinkles, glow underneath, downscale and sharpen. -/
noncomputable def render_star_frame (size out_size : ℕ) (t : ℝ) : RImg :=
  let sz : ℝ := (size : ℝ)
  let img0 := newRGBA size size (0, 0, 0, 0)
  let pulse := 0.5 + 0.5 * ph 0 t
  let pulse2 := 0.5 + 0.5 * ph 0.27 t
  let rotation := (Real.pi / 10) * ph 0.10 t
  let scale := 0.92 + 0.10 * pulse
  let cx := sz * 0.5
  let cy := sz * 0.5
  let outer := sz * 0.25 * scale
  let inner := sz * 0.10 * scale
  let main_pts := star_points cx cy outer inner 4 rotation
  let img1 := drawPolyRGBA img0 main_pts (255, 220, 80, 240)
  let core_pts := star_points cx cy (outer * 0.58) (inner * 0.44) 4 rotation
  let img2 := drawPolyRGBA img1 core_pts
    (255, 255, 255, ((pyInt (150 + 60 * pulse2) : ℤ) : ℝ))
  let streak_len := outer * (0.95 + 0.18 * pulse)
  let streak_w : ℤ := max 2 (pyInt (sz * 0.010))
  let img3 := drawLineRGBA img2 (cx - streak_len) cy (cx + streak_len) cy
    (255, 255, 255, ((pyInt (90 + 80 * pulse2) : ℤ) : ℝ)) ((streak_w : ℤ) : ℝ)
  let img4 := drawLineRGBA img3 cx (cy - streak_len) cx (cy + streak_len)
    (255, 255, 255, ((pyInt (80 + 70 * pulse) : ℤ) : ℝ)) ((streak_w : ℤ) : ℝ)
  let tx := cx + sz * 0.20
  let ty := cy - sz * 0.18
  let tw_outer := sz * 0.085 * (0.85 + 0.22 * (1 - pulse))
  let tw_inner := sz * 0.030 * (0.85 + 0.22 * (1 - pulse))
  let img5 := drawPolyRGBA img4 (star_points tx ty tw_outer tw_inner 4 (-rotation * 1.3))
    (255, 255, 255, ((pyInt (90 + 80 * pulse) : ℤ) : ℝ))
  let bx := cx - sz * 0.20
  let b_y := cy + sz * 0.18
  let bw_outer := sz * 0.060 * (0.90 + 0.25 * pulse2)
  let bw_inner := sz * 0.022 * (0.90 + 0.25 * pulse2)
  let img6 := drawPolyRGBA img5 (star_points bx b_y bw_outer bw_inner 4 (rotation * 1.1))
    (255, 255, 255, ((pyInt (60 + 70 * pulse2) : ℤ) : ℝ))
  let glow := brightRGBA 1.12 (blurRGBA (sz * 0.018) img6)
  let glow_alpha := pointGray (getchannelA glow) fun v => ((pyInt (v * 0.80) : ℤ) : ℝ)
  let glow2 := putalpha glow glow_alpha
  let img7 := alphaComposite glow2 img6
  unsharpRGBA 1.0 140 2 (resizeRGBA img7 out_size out_size)

/-- The animation driver of `main` for the flame effect: frames at phases
`i / n` for `i = 0 .. n-1`. -/
noncomputable def flame_frames (n size out_size : ℕ) : List RImg :=
  (List.range n).map fun i : ℕ => render_flame_frame size out_size ((i : ℝ) / (n : ℝ))

/-- The animation driver of `main` for the star effect. -/
noncomputable def star_frames (n size out_size : ℕ) : List RImg :=
  (List.range n).map fun i : ℕ => render_star_frame size out_size ((i : ℝ) / (n : ℝ))

/-- Mean alpha value of a frame. -/
noncomputable def avgAlpha (img : RImg) : ℝ :=
  (∑ x ∈ Finset.range img.width, ∑ y ∈ Finset.range img.height, img.a x y) /
    ((img.width : ℝ) * (img.height : ℝ))

/-- Default frame used with `List.getD`. -/
def noImg : RImg := ⟨0, 0, fun _ _ => 0, fun _ _ => 0, fun _ _ => 0, fun _ _ => 0⟩

/-! Lemmas. -/

/-- Each phase term is an integer-cycle sinusoid, so phase 1 reproduces
phase 0. -/
theorem ph_one (c : ℝ) : ph c 1 = ph c 0 := by
  unfold ph
  have h : 2 * Real.pi * (1 + c) = 2 * Real.pi * (0 + c) + 2 * Real.pi := by ring
  rw [h, Real.sin_add_two_pi]

theorem draw_flame_mask_loop (size : ℕ) (scale y_bias x_bias : ℝ) :
    draw_flame_mask size 1 scale y_bias x_bias =
      draw_flame_mask size 0 scale y_bias x_bias := by
  simp only [draw_flame_mask, ph_one]

theorem ember_on_loop : ember_on 1 = ember_on 0 := by
  simp only [ember_on, ph_one]

theorem flame_ember_loop (size : ℕ) : flame_ember size 1 = flame_ember size 0 := by
  simp only [flame_ember, ember_on_loop, ph_one]

theorem flame_base_loop (size : ℕ) : flame_base size 1 = flame_base size 0 := by
  simp only [flame_base, draw_flame_mask_loop, ph_one]

theorem render_flame_frame_loop (size out_size : ℕ) :
    render_flame_frame size out_size 1 = render_flame_frame size out_size 0 := by
  simp only [render_flame_frame, ember_on_loop, flame_base_loop, flame_ember_loop]

theorem render_star_frame_loop (size out_size : ℕ) :
    render_star_frame size out_size 1 = render_star_frame size out_size 0 := by
  simp only [render_star_frame, ph_one]

/-! Claim theorems. -/

/-- C2: for each effect and any canvas and output size, the frame rendered
at phase 1.0 is identical to the frame rendered at phase 0, since every
periodic term of both pipelines is an integer-cycle sinusoid of phase. -/
theorem claim_loop_continuity :
    (∀ size out_size : ℕ,
        render_flame_frame size out_size 1 = render_flame_frame size out_size 0) ∧
    (∀ size out_size : ℕ,
        render_star_frame size out_size 1 = render_star_frame size out_size 0) :=
  ⟨render_flame_frame_loop, render_star_frame_loop⟩

theorem render_flame_frame_width (size out_size : ℕ) (t : ℝ) :
    (render_flame_frame size out_size t).width = out_size := rfl

theorem render_flame_frame_height (size out_size : ℕ) (t : ℝ) :
    (render_flame_frame size out_size t).height = out_size := rfl

theorem flame_frames_getD (n size out_size i : ℕ) (h : i < n) :
    (flame_frames n size out_size).getD i noImg =
      render_flame_frame size out_size ((i : ℝ) / (n : ℝ)) := by
  unfold flame_frames
  rw [List.getD_eq_getElem?_getD, List.getElem?_map, List.getElem?_range h]
  rfl

theorem star_frames_getD (n size out_size i : ℕ) (h : i < n) :
    (star_frames n size out_size).getD i noImg =
      render_star_frame size out_size ((i : ℝ) / (n : ℝ)) := by
  unfold star_frames
  rw [List.getD_eq_getElem?_getD, List.getElem?_map, List.getElem?_range h]
  rfl

/-- C3: rendering is deterministic; the renderers are pure functions of
(canvas size, output size, phase), and a frame of the generated sequence is
exactly the standalone evaluation at its phase, with no state carried
across frames. -/
theorem claim_determinism :
    (∀ (size out_size : ℕ) (t : ℝ),
        render_flame_frame size out_size t = render_flame_frame size out_size t) ∧
    (∀ (size out_size : ℕ) (t : ℝ),
        render_star_frame size out_size t = render_star_frame size out_size t) ∧
    (∀ n size out_size i : ℕ, i < n →
        (flame_frames n size out_size).getD i noImg =
          render_flame_frame size out_size ((i : ℝ) / (n : ℝ))) ∧
    (∀ n size out_size i : ℕ, i < n →
        (star_frames n size out_size).getD i noImg =
          render_star_frame size out_size ((i : ℝ) / (n : ℝ))) :=
  ⟨fun _ _ _ => rfl, fun _ _ _ => rfl,
   fun n s o i h => flame_frames_getD n s o i h,
   fun n s o i h => star_frames_getD n s o i h⟩

theorem claim_determinism_witness :
    0 < 2 ∧
    (flame_frames 2 8 4).getD 0 noImg =
      render_flame_frame 8 4 (((0 : ℕ) : ℝ) / ((2 : ℕ) : ℝ)) :=
  ⟨by norm_num, claim_determinism.2.2.1 2 8 4 0 (by norm_num)⟩

theorem ember_on_at_073 : ember_on 0.73 = 1 := by
  unfold ember_on ph
  have h : 2 * Real.pi * ((0.73 : ℝ) + 0.52) = Real.pi / 2 + 2 * Real.pi := by ring
  rw [h, Real.sin_add_two_pi, Real.sin_pi_div_two]
  norm_num

theorem ember_on_at_098 : ember_on 0.98 = 0.45 := by
  unfold ember_on ph
  have h : 2 * Real.pi * ((0.98 : ℝ) + 0.52) = Real.pi + 2 * Real.pi := by ring
  rw [h, Real.sin_add_two_pi, Real.sin_pi]
  norm_num

/-- C7: the ember dot is drawn and composited on top exactly when
`0.45 + 0.55 * sin(2*pi*(t + 0.52))` exceeds 0.55; otherwise the frame is
the ember-free pipeline, and both cases occur within one loop, so the ember
is intermittent. -/
theorem claim_ember_intermittent :
    (∀ (size out_size : ℕ) (t : ℝ),
        (0.55 < ember_on t →
          render_flame_frame size out_size t =
            flame_out out_size (alphaComposite (flame_base size t) (flame_ember size t))) ∧
        (¬ 0.55 < ember_on t →
          render_flame_frame size out_size t = flame_out out_size (flame_base size t))) ∧
    (∃ t : ℝ, 0 ≤ t ∧ t < 1 ∧ 0.55 < ember_on t) ∧
    (∃ t : ℝ, 0 ≤ t ∧ t < 1 ∧ ¬ 0.55 < ember_on t) := by
  refine ⟨fun size out_size t => ⟨fun h => ?_, fun h => ?_⟩, ?_, ?_⟩
  · rw [render_flame_frame, if_pos h]
  · rw [render_flame_frame, if_neg h]
  · exact ⟨0.73, by norm_num, by norm_num, by rw [ember_on_at_073]; norm_num⟩
  · exact ⟨0.98, by norm_num, by norm_num, by rw [ember_on_at_098]; norm_num⟩

theorem claim_ember_intermittent_witness :
    0.55 < ember_on 0.73 ∧
    render_flame_frame 8 4 0.73 =
      flame_out 4 (alphaComposite (flame_base 8 0.73) (flame_ember 8 0.73)) :=
  have h : (0.55 : ℝ) < ember_on 0.73 := by rw [ember_on_at_073]; norm_num
  ⟨h, (claim_ember_intermittent.1 8 4 0.73).1 h⟩

/-- C8: the flame effect generated with frame count 4, canvas 64 and output
32 yields exactly 4 frames, each a square raster of side 32, and frame 0's
average alpha equals the average alpha of the frame computed at phase 1.0
exactly (hence within any rounding tolerance). -/
theorem claim_flame_end_to_end :
    (flame_frames 4 64 32).length = 4 ∧
    (∀ f ∈ flame_frames 4 64 32, f.width = 32 ∧ f.height = 32) ∧
    avgAlpha ((flame_frames 4 64 32).getD 0 noImg) =
      avgAlpha (render_flame_frame 64 32 1) := by
  refine ⟨by simp only [flame_frames, List.length_map, List.length_range], ?_, ?_⟩
  · intro f hf
    rcases List.mem_map.1 hf with ⟨i, _, rfl⟩
    exact ⟨render_flame_frame_width 64 32 _, render_flame_frame_height 64 32 _⟩
  · rw [flame_frames_getD 4 64 32 0 (by norm_num), render_flame_frame_loop]
    norm_num

theorem claim_flame_end_to_end_witness :
    render_flame_frame 64 32 (((0 : ℕ) : ℝ) / ((4 : ℕ) : ℝ)) ∈ flame_frames 4 64 32 ∧
    (render_flame_frame 64 32 (((0 : ℕ) : ℝ) / ((4 : ℕ) : ℝ))).width = 32 ∧
    (render_flame_frame 64 32 (((0 : ℕ) : ℝ) / ((4 : ℕ) : ℝ))).height = 32 :=
  have hm : render_flame_frame 64 32 (((0 : ℕ) : ℝ) / ((4 : ℕ) : ℝ)) ∈
      flame_frames 4 64 32 := by
    have h4 : (0 : ℕ) < 4 := by norm_num
    unfold flame_frames
    refine List.mem_map.2 ⟨0, List.mem_range.2 h4, ?_⟩
    norm_num
  ⟨hm, claim_flame_end_to_end.2.1 _ hm⟩

theorem insStop_ne_nil {α : Type} [LinearOrder α] (s : PaletteStop α)
    (l : List (PaletteStop α)) : insStop s l ≠ [] := by
  cases l with
  | nil => simp [insStop]
  | cons t rest =>
      unfold insStop
      split <;> simp

theorem sortStops_ne_nil {α : Type} [LinearOrder α] (stops : List (PaletteStop α))
    (h : stops ≠ []) : sortStops stops ≠ [] := by
  cases stops with
  | nil => exact absurd rfl h
  | cons a rest => exact insStop_ne_nil a (sortStops rest)

theorem clamp_mem {α : Type} [LinearOrder α] (x lo hi : α) (h : lo ≤ hi) :
    lo ≤ clamp x lo hi ∧ clamp x lo hi ≤ hi :=
  ⟨le_max_left _ _, max_le h (min_le_left _ _)⟩

theorem clamp_of_mem {α : Type} [LinearOrder α] (x lo hi : α)
    (h0 : lo ≤ x) (h1 : x ≤ hi) : clamp x lo hi = x := by
  unfold clamp
  rw [min_eq_right h1, max_eq_right h0]

theorem pyInt_bounds {α : Type} [LinearOrderedField α] [FloorRing α] (x : α)
    (h0 : 0 ≤ x) (h255 : x ≤ 255) : 0 ≤ pyInt x ∧ pyInt x ≤ 255 := by
  unfold pyInt
  rw [if_pos h0]
  constructor
  · exact Int.le_floor.mpr (by exact_mod_cast h0)
  · have := Int.floor_le_floor h255
    rwa [show ((255 : α)) = ((255 : ℤ) : α) by norm_num, Int.floor_intCast] at this

theorem pyInt_intCast {α : Type} [LinearOrderedField α] [FloorRing α] (n : ℤ) :
    pyInt ((n : ℤ) : α) = n := by
  unfold pyInt
  split <;> simp

theorem pyRound_intCast {α : Type} [LinearOrderedField α] [FloorRing α] (n : ℤ) :
    pyRound ((n : ℤ) : α) = n := by
  unfold pyRound
  norm_num

theorem lutSample_bounds (ss : List (PaletteStop ℚ)) (b : ℚ) (i : ℕ) :
    (0 ≤ (lutSample ss b i).1 ∧ (lutSample ss b i).1 ≤ 255) ∧
    (0 ≤ (lutSample ss b i).2.1 ∧ (lutSample ss b i).2.1 ≤ 255) ∧
    (0 ≤ (lutSample ss b i).2.2 ∧ (lutSample ss b i).2.2 ≤ 255) := by
  unfold lutSample
  dsimp only
  have h : (0 : ℚ) ≤ 255 := by norm_num
  refine ⟨pyInt_bounds _ (clamp_mem _ 0 255 h).1 (clamp_mem _ 0 255 h).2,
    pyInt_bounds _ (clamp_mem _ 0 255 h).1 (clamp_mem _ 0 255 h).2,
    pyInt_bounds _ (clamp_mem _ 0 255 h).1 (clamp_mem _ 0 255 h).2⟩

theorem getD_map_range (f : ℕ → ℤ) (n i : ℕ) (h : i < n) :
    ((List.range n).map f).getD i 0 = f i := by
  rw [List.getD_eq_getElem?_getD, List.getElem?_map, List.getElem?_range h]
  rfl

/-- Shape of `build_luts` on any nonempty stop list: success, with three
256-entry LUTs whose values all lie in [0, 255]. -/
theorem build_luts_spec (stops : List (PaletteStop ℚ)) (b : ℚ) (h : stops ≠ []) :
    ∃ lr lg lb, build_luts stops b = some (lr, lg, lb) ∧
      lr.length = 256 ∧ lg.length = 256 ∧ lb.length = 256 ∧
      (∀ v ∈ lr, 0 ≤ v ∧ v ≤ 255) ∧ (∀ v ∈ lg, 0 ≤ v ∧ v ≤ 255) ∧
      (∀ v ∈ lb, 0 ≤ v ∧ v ≤ 255) := by
  have hs := sortStops_ne_nil stops h
  cases he : sortStops stops with
  | nil => exact absurd he hs
  | cons s rest =>
      refine ⟨_, _, _, by rw [build_luts, he], ?_, ?_, ?_, ?_, ?_, ?_⟩ <;>
        simp only [lutsFromSorted, List.length_map, List.length_range]
      · intro v hv
        rcases List.mem_map.1 hv with ⟨i, _, rfl⟩
        exact (lutSample_bounds _ b i).1
      · intro v hv
        rcases List.mem_map.1 hv with ⟨i, _, rfl⟩
        exact (lutSample_bounds _ b i).2.1
      · intro v hv
        rcases List.mem_map.1 hv with ⟨i, _, rfl⟩
        exact (lutSample_bounds _ b i).2.2

/-- C4: `build_luts` on any nonempty stop list returns three 256-entry LUTs
with every entry in [0, 255], and for the 2-stop black-to-white palette at
brightness 1 the entry at index 127 is 127 (mid-gray) on all channels. -/
theorem claim_lut_shape :
    (∀ (stops : List (PaletteStop ℚ)) (brightness : ℚ), stops ≠ [] →
      ∃ lr lg lb, build_luts stops brightness = some (lr, lg, lb) ∧
        lr.length = 256 ∧ lg.length = 256 ∧ lb.length = 256 ∧
        (∀ v ∈ lr, 0 ≤ v ∧ v ≤ 255) ∧ (∀ v ∈ lg, 0 ≤ v ∧ v ≤ 255) ∧
        (∀ v ∈ lb, 0 ≤ v ∧ v ≤ 255)) ∧
    (∃ lr lg lb,
      build_luts [⟨0, (0, 0, 0)⟩, ⟨1, (255, 255, 255)⟩] (1 : ℚ) = some (lr, lg, lb) ∧
      lr.getD 127 0 = 127 ∧ lg.getD 127 0 = 127 ∧ lb.getD 127 0 = 127) := by
  constructor
  · exact fun stops brightness h => build_luts_spec stops brightness h
  · have hsort : sortStops [(⟨0, (0, 0, 0)⟩ : PaletteStop ℚ), ⟨1, (255, 255, 255)⟩] =
        [⟨0, (0, 0, 0)⟩, ⟨1, (255, 255, 255)⟩] := by decide
    have hpad : padStops [(⟨0, (0, 0, 0)⟩ : PaletteStop ℚ), ⟨1, (255, 255, 255)⟩] =
        [⟨0, (0, 0, 0)⟩, ⟨1, (255, 255, 255)⟩] := by decide
    have hbl : build_luts [(⟨0, (0, 0, 0)⟩ : PaletteStop ℚ), ⟨1, (255, 255, 255)⟩] (1 : ℚ) =
        some (lutsFromSorted [(⟨0, (0, 0, 0)⟩ : PaletteStop ℚ), ⟨1, (255, 255, 255)⟩] 1) := by
      unfold build_luts
      rw [hsort]
      dsimp only
      rw [hpad]
    have h127 :
        lutSample [(⟨0, (0, 0, 0)⟩ : PaletteStop ℚ), ⟨1, (255, 255, 255)⟩] (1 : ℚ) 127 =
          (127, 127, 127) := by
      simp only [lutSample, findBracket, lutSpan, clamp, lerp_color, lerp, pyRound, pyInt]
      norm_num
    refine ⟨_, _, _, hbl, ?_, ?_, ?_⟩
    all_goals
      try simp only [lutsFromSorted]
      rw [getD_map_range _ 256 127 (by norm_num), h127]

theorem claim_lut_shape_witness :
    ([⟨0, (10, 20, 30)⟩] : List (PaletteStop ℚ)) ≠ [] ∧
    ∃ lr lg lb, build_luts ([⟨0, (10, 20, 30)⟩] : List (PaletteStop ℚ)) (2 : ℚ) =
        some (lr, lg, lb) ∧
      lr.length = 256 ∧ lg.length = 256 ∧ lb.length = 256 ∧
      (∀ v ∈ lr, 0 ≤ v ∧ v ≤ 255) ∧ (∀ v ∈ lg, 0 ≤ v ∧ v ≤ 255) ∧
      (∀ v ∈ lb, 0 ≤ v ∧ v ≤ 255) :=
  ⟨List.cons_ne_nil _ _, claim_lut_shape.1 _ 2 (List.cons_ne_nil _ _)⟩

/-- C6: `build_luts` fails (raises, modelled as `none`) exactly on the empty
stop list; every other stop list builds a LUT triple. -/
theorem claim_empty_stops_error :
    ∀ (stops : List (PaletteStop ℚ)) (brightness : ℚ),
      build_luts stops brightness = none ↔ stops = [] := by
  intro stops brightness
  constructor
  · intro hn
    by_contra h
    rcases build_luts_spec stops brightness h with ⟨lr, lg, lb, hsome, _⟩
    rw [hn] at hsome
    exact Option.noConfusion hsome
  · intro h
    subst h
    rfl

/-- C10: `build_luts` is total on every nonempty stop list, even with
positions outside [0, 1] or coincident positions, always returning full
256-entry LUTs; and its interpolation divisor is bounded below by 1e-6. -/
theorem claim_lut_total :
    (∀ (stops : List (PaletteStop ℚ)) (brightness : ℚ), stops ≠ [] →
      ∃ luts, build_luts stops brightness = some luts ∧
        luts.1.length = 256 ∧ luts.2.1.length = 256 ∧ luts.2.2.length = 256) ∧
    (∀ lo hi : PaletteStop ℚ, 1 / 1000000 ≤ lutSpan lo hi) := by
  constructor
  · intro stops brightness h
    rcases build_luts_spec stops brightness h with ⟨lr, lg, lb, hsome, h1, h2, h3, _⟩
    exact ⟨(lr, lg, lb), hsome, h1, h2, h3⟩
  · intro lo hi
    exact le_max_left _ _

theorem claim_lut_total_witness :
    ([⟨-2, (300, -5, 999)⟩, ⟨-2, (0, 0, 0)⟩, ⟨5, (1, 2, 3)⟩] :
        List (PaletteStop ℚ)) ≠ [] ∧
    ∃ luts,
      build_luts ([⟨-2, (300, -5, 999)⟩, ⟨-2, (0, 0, 0)⟩, ⟨5, (1, 2, 3)⟩] :
          List (PaletteStop ℚ)) (3 : ℚ) = some luts ∧
      luts.1.length = 256 ∧ luts.2.1.length = 256 ∧ luts.2.2.length = 256 :=
  ⟨List.cons_ne_nil _ _, claim_lut_total.1 _ 3 (List.cons_ne_nil _ _)⟩

theorem sortStops_two_stops (c1 c2 : ℤ × ℤ × ℤ) :
    sortStops [(⟨3 / 10, c1⟩ : PaletteStop ℚ), ⟨7 / 10, c2⟩] =
      [⟨3 / 10, c1⟩, ⟨7 / 10, c2⟩] := by
  norm_num [sortStops, insStop]

theorem padStops_two_stops (c1 c2 : ℤ × ℤ × ℤ) :
    padStops [(⟨3 / 10, c1⟩ : PaletteStop ℚ), ⟨7 / 10, c2⟩] =
      [⟨0, c1⟩, ⟨3 / 10, c1⟩, ⟨7 / 10, c2⟩, ⟨1, c2⟩] := by
  norm_num [padStops, List.getLast?]

theorem sortStops_padded_stops (c1 c2 : ℤ × ℤ × ℤ) :
    sortStops [(⟨0, c1⟩ : PaletteStop ℚ), ⟨3 / 10, c1⟩, ⟨7 / 10, c2⟩, ⟨1, c2⟩] =
      [⟨0, c1⟩, ⟨3 / 10, c1⟩, ⟨7 / 10, c2⟩, ⟨1, c2⟩] := by
  norm_num [sortStops, insStop]

theorem padStops_padded_stops (c1 c2 : ℤ × ℤ × ℤ) :
    padStops [(⟨0, c1⟩ : PaletteStop ℚ), ⟨3 / 10, c1⟩, ⟨7 / 10, c2⟩, ⟨1, c2⟩] =
      [⟨0, c1⟩, ⟨3 / 10, c1⟩, ⟨7 / 10, c2⟩, ⟨1, c2⟩] := by
  norm_num [padStops, List.getLast?]

/-- Sample 0 of the padded two-stop palette interpolates between the two
synthetic-boundary clones of the first stop color, so it reproduces that
color exactly. -/
theorem lutSample_pad03_entry0 (c1 c2 : ℤ × ℤ × ℤ)
    (h1 : 0 ≤ c1.1 ∧ c1.1 ≤ 255) (h2 : 0 ≤ c1.2.1 ∧ c1.2.1 ≤ 255)
    (h3 : 0 ≤ c1.2.2 ∧ c1.2.2 ≤ 255) :
    lutSample [(⟨0, c1⟩ : PaletteStop ℚ), ⟨3 / 10, c1⟩, ⟨7 / 10, c2⟩, ⟨1, c2⟩] 1 0 =
      (c1.1, c1.2.1, c1.2.2) := by
  have hc1 : (0 : ℚ) ≤ (c1.1 : ℚ) ∧ (c1.1 : ℚ) ≤ 255 := by exact_mod_cast h1
  have hc2 : (0 : ℚ) ≤ (c1.2.1 : ℚ) ∧ (c1.2.1 : ℚ) ≤ 255 := by exact_mod_cast h2
  have hc3 : (0 : ℚ) ≤ (c1.2.2 : ℚ) ∧ (c1.2.2 : ℚ) ≤ 255 := by exact_mod_cast h3
  simp only [lutSample, findBracket, lutSpan, clamp, lerp_color, lerp, pyInt]
  norm_num
  simp only [pyRound_intCast]
  rw [inf_eq_right.mpr hc1.2, inf_eq_right.mpr hc2.2, inf_eq_right.mpr hc3.2,
      sup_eq_right.mpr hc1.1, sup_eq_right.mpr hc2.1, sup_eq_right.mpr hc3.1,
      Int.floor_intCast, Int.floor_intCast, Int.floor_intCast]

/-- C5: with stops only at positions 0.3 and 0.7, `build_luts` behaves
exactly as if synthetic stops at 0 (cloned from the 0.3 stop's color) and at
1 (cloned from the 0.7 stop's color) had been supplied, and LUT sample 0
equals the 0.3 stop's color exactly. -/
theorem claim_boundary_padding :
    (∀ (c1 c2 : ℤ × ℤ × ℤ) (b : ℚ),
      build_luts [(⟨3 / 10, c1⟩ : PaletteStop ℚ), ⟨7 / 10, c2⟩] b =
        build_luts [(⟨0, c1⟩ : PaletteStop ℚ), ⟨3 / 10, c1⟩, ⟨7 / 10, c2⟩, ⟨1, c2⟩] b) ∧
    (∀ c1 c2 : ℤ × ℤ × ℤ,
      0 ≤ c1.1 ∧ c1.1 ≤ 255 → 0 ≤ c1.2.1 ∧ c1.2.1 ≤ 255 → 0 ≤ c1.2.2 ∧ c1.2.2 ≤ 255 →
      ∃ lr lg lb,
        build_luts [(⟨3 / 10, c1⟩ : PaletteStop ℚ), ⟨7 / 10, c2⟩] (1 : ℚ) =
          some (lr, lg, lb) ∧
        lr.getD 0 0 = c1.1 ∧ lg.getD 0 0 = c1.2.1 ∧ lb.getD 0 0 = c1.2.2) := by
  have key : ∀ (c1 c2 : ℤ × ℤ × ℤ) (b : ℚ),
      build_luts [(⟨3 / 10, c1⟩ : PaletteStop ℚ), ⟨7 / 10, c2⟩] b =
        some (lutsFromSorted
          [(⟨0, c1⟩ : PaletteStop ℚ), ⟨3 / 10, c1⟩, ⟨7 / 10, c2⟩, ⟨1, c2⟩] b) := by
    intro c1 c2 b
    unfold build_luts
    rw [sortStops_two_stops]
    dsimp only
    rw [padStops_two_stops]
  constructor
  · intro c1 c2 b
    rw [key]
    unfold build_luts
    rw [sortStops_padded_stops]
    dsimp only
    rw [padStops_padded_stops]
  · intro c1 c2 h1 h2 h3
    refine ⟨_, _, _, key c1 c2 1, ?_, ?_, ?_⟩
    all_goals
      try simp only [lutsFromSorted]
      rw [getD_map_range _ 256 0 (by norm_num), lutSample_pad03_entry0 c1 c2 h1 h2 h3]

theorem claim_boundary_padding_witness :
    (0 ≤ ((10, 20, 30) : ℤ × ℤ × ℤ).1 ∧ ((10, 20, 30) : ℤ × ℤ × ℤ).1 ≤ 255) ∧
    ∃ lr lg lb,
      build_luts [(⟨3 / 10, (10, 20, 30)⟩ : PaletteStop ℚ), ⟨7 / 10, (200, 100, 50)⟩]
          (1 : ℚ) = some (lr, lg, lb) ∧
      lr.getD 0 0 = ((10, 20, 30) : ℤ × ℤ × ℤ).1 ∧
      lg.getD 0 0 = ((10, 20, 30) : ℤ × ℤ × ℤ).2.1 ∧
      lb.getD 0 0 = ((10, 20, 30) : ℤ × ℤ × ℤ).2.2 :=
  ⟨by norm_num,
   claim_boundary_padding.2 (10, 20, 30) (200, 100, 50)
     (by norm_num) (by norm_num) (by norm_num)⟩

theorem getD_append_lt {X : Type} (l l' : List X) (d : X) (r : ℕ) (h : r < l.length) :
    (l ++ l').getD r d = l.getD r d := by
  induction l generalizing r with
  | nil => simp at h
  | cons a t ih =>
      cases r with
      | zero => rfl
      | succ n =>
          simp only [List.cons_append, List.getD_cons_succ]
          exact ih n (by simpa using h)

theorem getD_concat_self {X : Type} (l : List X) (a d : X) :
    (l ++ [a]).getD l.length d = a := by
  induction l with
  | nil => rfl
  | cons b t ih => simpa only [List.cons_append, List.length_cons, List.getD_cons_succ] using ih

theorem getD_set_ne {X : Type} (l : List X) (i j : ℕ) (a d : X) (h : i ≠ j) :
    (l.set i a).getD j d = l.getD j d := by
  induction l generalizing i j with
  | nil => rfl
  | cons b t ih =>
      cases i with
      | zero =>
          cases j with
          | zero => exact absurd rfl h
          | succ m => rfl
      | succ n =>
          cases j with
          | zero => rfl
          | succ m =>
              simp only [List.set_cons_succ, List.getD_cons_succ]
              exact ih n m (fun he => h (by rw [he]))

theorem getD_set_self {X : Type} (l : List X) (i : ℕ) (a d : X) (h : i < l.length) :
    (l.set i a).getD i d = a := by
  induction l generalizing i with
  | nil => simp at h
  | cons b t ih =>
      cases i with
      | zero => rfl
      | succ n =>
          simp only [List.set_cons_succ, List.getD_cons_succ]
          exact ih n (by simpa using h)

theorem getLast?_cons_isSome {X : Type} (x : X) (l : List X) :
    ∃ z, (x :: l).getLast? = some z := by
  induction l generalizing x with
  | nil => exact ⟨x, rfl⟩
  | cons y t ih =>
      rcases ih y with ⟨z, hz⟩
      exact ⟨z, by rw [List.getLast?_cons_cons, hz]⟩

/-- C9: `build_luts` never mutates its input: at the heap level, `sorted`
allocates a fresh working list and both boundary insertions write only to
that copy, so the input list at address `r` is unchanged and the result
agrees with the pure `build_luts` of the input list. -/
theorem claim_no_mutation :
    ∀ (heap : StopHeap) (r : ℕ) (b : ℚ), r < heap.length →
      (build_luts_state heap r b).1.getD r [] = heap.getD r [] ∧
      (build_luts_state heap r b).2 = build_luts (heap.getD r []) b := by
  intro heap r b hr
  have hne : heap.length ≠ r := (Nat.ne_of_lt hr).symm
  unfold build_luts_state pyListSorted pyListInsert0 pyListAppend
  dsimp only
  rw [getD_concat_self heap (sortStops (heap.getD r [])) []]
  cases hsc : sortStops (heap.getD r []) with
  | nil =>
      constructor
      · exact getD_append_lt heap [[]] [] r hr
      · show none = build_luts (heap.getD r []) b
        unfold build_luts
        rw [hsc]
  | cons a rest =>
      dsimp only
      by_cases hpos : 0 < a.atPos
      · rw [if_pos hpos,
          getD_set_self (heap ++ [a :: rest]) heap.length (⟨0, a.color⟩ :: a :: rest) []
            (by simp)]
        rcases getLast?_cons_isSome (⟨0, a.color⟩ : PaletteStop ℚ) (a :: rest) with ⟨z, hz⟩
        rw [hz]
        dsimp only
        by_cases hzl : z.atPos < 1
        · have hpad : padStops (a :: rest) =
              ((⟨0, a.color⟩ : PaletteStop ℚ) :: a :: rest) ++ [⟨1, z.color⟩] := by
            unfold padStops
            dsimp only
            rw [if_pos hpos, hz]
            dsimp only
            rw [if_pos hzl]
          rw [if_pos hzl]
          constructor
          · rw [getD_set_ne _ _ _ _ _ hne, getD_set_ne _ _ _ _ _ hne,
              getD_append_lt heap [a :: rest] [] r hr]
          · rw [getD_set_self _ _ _ _ (by simp)]
            unfold build_luts
            rw [hsc]
            dsimp only
            rw [hpad]
        · have hpad : padStops (a :: rest) =
              (⟨0, a.color⟩ : PaletteStop ℚ) :: a :: rest := by
            unfold padStops
            dsimp only
            rw [if_pos hpos, hz]
            dsimp only
            rw [if_neg hzl]
          rw [if_neg hzl]
          constructor
          · rw [getD_set_ne _ _ _ _ _ hne, getD_append_lt heap [a :: rest] [] r hr]
          · rw [getD_set_self (heap ++ [a :: rest]) heap.length
                (⟨0, a.color⟩ :: a :: rest) [] (by simp)]
            unfold build_luts
            rw [hsc]
            dsimp only
            rw [hpad]
      · rw [if_neg hpos, getD_concat_self heap (a :: rest) []]
        rcases getLast?_cons_isSome a rest with ⟨z, hz⟩
        rw [hz]
        dsimp only
        by_cases hzl : z.atPos < 1
        · have hpad : padStops (a :: rest) = (a :: rest) ++ [⟨1, z.color⟩] := by
            unfold padStops
            dsimp only
            rw [if_neg hpos, hz]
            dsimp only
            rw [if_pos hzl]
          rw [if_pos hzl]
          constructor
          · rw [getD_set_ne _ _ _ _ _ hne, getD_append_lt heap [a :: rest] [] r hr]
          · rw [getD_set_self _ _ _ _ (by simp)]
            unfold build_luts
            rw [hsc]
            dsimp only
            rw [hpad]
        · have hpad : padStops (a :: rest) = a :: rest := by
            unfold padStops
            dsimp only
            rw [if_neg hpos, hz]
            dsimp only
            rw [if_neg hzl]
          rw [if_neg hzl]
          constructor
          · exact getD_append_lt heap [a :: rest] [] r hr
          · rw [getD_concat_self heap (a :: rest) []]
            unfold build_luts
            rw [hsc]
            dsimp only
            rw [hpad]

theorem claim_no_mutation_witness :
    0 < ([[(⟨1 / 2, (9, 9, 9)⟩ : PaletteStop ℚ)]] : StopHeap).length ∧
    (build_luts_state ([[(⟨1 / 2, (9, 9, 9)⟩ : PaletteStop ℚ)]] : StopHeap) 0 1).1.getD 0 [] =
      ([[(⟨1 / 2, (9, 9, 9)⟩ : PaletteStop ℚ)]] : StopHeap).getD 0 [] ∧
    (build_luts_state ([[(⟨1 / 2, (9, 9, 9)⟩ : PaletteStop ℚ)]] : StopHeap) 0 1).2 =
      build_luts (([[(⟨1 / 2, (9, 9, 9)⟩ : PaletteStop ℚ)]] : StopHeap).getD 0 []) 1 :=
  ⟨by norm_num,
   (claim_no_mutation [[⟨1 / 2, (9, 9, 9)⟩]] 0 1 (by norm_num)).1,
   (claim_no_mutation [[⟨1 / 2, (9, 9, 9)⟩]] 0 1 (by norm_num)).2⟩

/-- C1: the `pal.paste(0, transparent)` step does send every pixel with
alpha at most the threshold to index 0, but nothing reserves index 0 during
the adaptive quantization, so an opaque pixel can also land on index 0: on
`mixedFrame` the single palette color sits at index 0 and the fully opaque
pixel (1, 0) gets the transparent index. -/
theorem claim_quantizer_transparent_bug :
    mixedFrame.a 0 0 ≤ 8 ∧ (rgba_to_gif_frame mixedFrame 8 128).idx 0 0 = 0 ∧
    8 < mixedFrame.a 1 0 ∧ (rgba_to_gif_frame mixedFrame 8 128).idx 1 0 = 0 ∧
    (rgba_to_gif_frame mixedFrame 8 128).transparency = 0 := by
  decide

/-- The paste step guarantees the forward direction of C1 for every frame,
threshold, budget and quantizer outcome: low-alpha pixels always map to the
reserved index 0. -/
theorem rgba_to_gif_frame_low_alpha (img : NImg) (alpha_threshold colors x y : ℕ)
    (h : img.a x y ≤ alpha_threshold) :
    (rgba_to_gif_frame img alpha_threshold colors).idx x y = 0 := by
  unfold rgba_to_gif_frame
  dsimp only
  rw [if_pos h]

theorem rgba_to_gif_frame_low_alpha_witness :
    mixedFrame.a 0 0 ≤ 8 ∧ (rgba_to_gif_frame mixedFrame 8 96).idx 0 0 = 0 :=
  ⟨by decide, rgba_to_gif_frame_low_alpha mixedFrame 8 96 0 0 (by decide)⟩

end Streak
